import Mathlib

/-!
Verification development for the project-manager CRUD backend.

The repository exposes CRUD HTTP handlers for projects, packages and
clients over an ent/PostgreSQL store (the `cmd/server` handlers, the
`src/main.go` handlers) and, in a historical variant, over Firestore.
We embed the handler logic shallowly: Go structs become Lean structures,
the ent tables become association lists keyed by integer ids, Go slices
become `Option (List α)` (with `none` playing the role of the Go `nil`
slice, which marshals to JSON `null`), and each handler becomes a pure
function from the decoded request and the store to an HTTP status, an
optional response body and the new store.

The `stacks` field is persisted as a JSON-encoded string column, so we
first embed the fragment of Go's `encoding/json` used by the handlers:
marshalling a `[]string` and unmarshalling a string column back into a
`[]string`.
-/

set_option autoImplicit false
set_option maxRecDepth 10000

namespace Go

/-- Lower-case hexadecimal digit, as used by Go's `\u00xx` escapes. -/
def hexDigitChar (n : Nat) : Char :=
  if n < 10 then Char.ofNat (48 + n) else Char.ofNat (97 + (n - 10))

/-- Inverse of `hexDigitChar`, accepting upper- and lower-case digits. -/
def hexDigitVal (c : Char) : Option Nat :=
  if 48 ≤ c.toNat ∧ c.toNat ≤ 57 then some (c.toNat - 48)
  else if 97 ≤ c.toNat ∧ c.toNat ≤ 102 then some (c.toNat - 97 + 10)
  else if 65 ≤ c.toNat ∧ c.toNat ≤ 70 then some (c.toNat - 65 + 10)
  else none

/-- The four hex digits of a `\uXXXX` escape for code point `n`. -/
def hex4 (n : Nat) : List Char :=
  [hexDigitChar (n / 4096 % 16), hexDigitChar (n / 256 % 16),
   hexDigitChar (n / 16 % 16), hexDigitChar (n % 16)]

/-- Encoding of one character inside a JSON string literal, following
Go's `encoding/json` encoder with its default HTML escaping: `"`, `\`
get backslash escapes, `\n`, `\r`, `\t` their short forms, remaining
control characters, `<`, `>`, `&`, U+2028 and U+2029 get `\u` escapes,
everything else is emitted verbatim. -/
def encodeChar (c : Char) : List Char :=
  if c = '"' then ['\\', '"']
  else if c = '\\' then ['\\', '\\']
  else if c = Char.ofNat 10 then ['\\', 'n']
  else if c = Char.ofNat 13 then ['\\', 'r']
  else if c = Char.ofNat 9 then ['\\', 't']
  else if c.toNat < 32 ∨ c = '<' ∨ c = '>' ∨ c = '&'
       ∨ c.toNat = 8232 ∨ c.toNat = 8233 then
    '\\' :: 'u' :: hex4 c.toNat
  else [c]

/-- Body of the JSON string literal for `s` (without the quotes). -/
def encodeStringBody (cs : List Char) : List Char :=
  cs.flatMap encodeChar

/-- A complete JSON string literal for `s`. -/
def quoteString (s : String) : List Char :=
  '"' :: encodeStringBody s.data ++ ['"']

/-- Value of a single-character escape `\c`, as accepted by Go's
decoder (`\u` is handled separately). -/
def unescapeChar (c : Char) : Option Char :=
  if c = '"' then some '"'
  else if c = '\\' then some '\\'
  else if c = '/' then some '/'
  else if c = 'n' then some (Char.ofNat 10)
  else if c = 't' then some (Char.ofNat 9)
  else if c = 'r' then some (Char.ofNat 13)
  else if c = 'b' then some (Char.ofNat 8)
  else if c = 'f' then some (Char.ofNat 12)
  else none

/-- Decode the body of a JSON string literal: the input starts right
after the opening quote; on success return the decoded characters and
the input remaining after the closing quote. -/
def decStr : List Char → Option (List Char × List Char)
  | [] => none
  | c :: r =>
    if c = '"' then some ([], r)
    else if c = '\\' then
      match r with
      | [] => none
      | e :: r2 =>
        if e = 'u' then
          match r2 with
          | a :: b :: c2 :: d :: r3 =>
            match hexDigitVal a, hexDigitVal b, hexDigitVal c2, hexDigitVal d with
            | some x, some y, some z, some w =>
              (decStr r3).map
                (fun p => (Char.ofNat (((x * 16 + y) * 16 + z) * 16 + w) :: p.1, p.2))
            | _, _, _, _ => none
          | _ => none
        else
          match unescapeChar e with
          | some ec => (decStr r2).map (fun p => (ec :: p.1, p.2))
          | none => none
    else
      if c.toNat < 32 then none
      else (decStr r).map (fun p => (c :: p.1, p.2))

/-- JSON whitespace. -/
def isWs (c : Char) : Bool :=
  c = ' ' || c = Char.ofNat 9 || c = Char.ofNat 10 || c = Char.ofNat 13

/-- Skip leading JSON whitespace. -/
def skipWs : List Char → List Char
  | [] => []
  | c :: r => if isWs c then skipWs r else c :: r

/-- Comma-separated JSON string literals, as Go's `json.Marshal` emits
for a non-empty `[]string` (no spaces). -/
def encodeStringArrayCore : List String → List Char
  | [] => []
  | [x] => quoteString x
  | x :: y :: ys => quoteString x ++ ',' :: encodeStringArrayCore (y :: ys)

/-- `json.Marshal` of a Go `[]string`: a `nil` slice marshals to
`null`, an empty one to `[]`, otherwise the elements in order. -/
def marshalStringList : Option (List String) → String
  | none => "null"
  | some [] => String.mk ['[', ']']
  | some (x :: xs) => String.mk ('[' :: encodeStringArrayCore (x :: xs) ++ [']'])

/-- One array element, as Go's `json.Unmarshal` accepts it into a
`[]string` slot: a string literal, or the literal `null`, which leaves
the element at its zero value `""` without error. -/
def parseElem : List Char → Option (String × List Char)
  | '"' :: r => (decStr r).map (fun p => (String.mk p.1, p.2))
  | 'n' :: 'u' :: 'l' :: 'l' :: r => some ("", r)
  | _ => none

/-- Parse the elements of a JSON array, positioned at the first
element; returns the decoded elements and the input after `]`. The
first argument is fuel; each recursive step consumes at least one
character, so `cs.length + 1` fuel always suffices. -/
def parseElemsF : Nat → List Char → Option (List String × List Char)
  | 0, _ => none
  | fuel + 1, cs =>
    match parseElem cs with
    | none => none
    | some (s, rest) =>
      match skipWs rest with
      | ',' :: r2 => (parseElemsF fuel (skipWs r2)).map (fun p => (s :: p.1, p.2))
      | ']' :: r2 => some ([s], r2)
      | _ => none

/-- Element parser with its always-sufficient fuel. -/
def parseElems (cs : List Char) : Option (List String × List Char) :=
  parseElemsF (cs.length + 1) cs

/-- Go's `json.Unmarshal` of a JSON array of strings (whitespace
tolerant, rejecting anything that is not exactly one array). -/
def parseStringArray (s : String) : Option (List String) :=
  match skipWs s.data with
  | '[' :: r =>
    match skipWs r with
    | ']' :: r2 => if skipWs r2 = [] then some [] else none
    | r1 =>
      match parseElems r1 with
      | some (xs, rest) => if skipWs rest = [] then some xs else none
      | none => none
  | _ => none

/-- Whether the column text is the JSON literal `null` (which
`json.Unmarshal` accepts for a `[]string`, leaving the slice `nil`). -/
def isNullToken (s : String) : Bool :=
  match skipWs s.data with
  | 'n' :: 'u' :: 'l' :: 'l' :: r => (skipWs r).isEmpty
  | _ => false

/-- `json.Unmarshal` of a string column into a Go `[]string`: `null`
succeeds leaving the slice `nil` (`none`), a valid array succeeds with
its elements, anything else errors. -/
def unmarshalStringList (s : String) : Option (Option (List String)) :=
  if isNullToken s then some none
  else
    match parseStringArray s with
    | some xs => some (some xs)
    | none => none

/-- The read-path idiom shared by every handler:
`var stacks []string; if err := json.Unmarshal([]byte(col), &stacks); err != nil { stacks = []string{} }`.
On decode error the slice is reset to the empty (non-nil) slice. -/
def readStacks (s : String) : Option (List String) :=
  match unmarshalStringList s with
  | some v => v
  | none => some []

/-- `len` of a Go slice; a `nil` slice has length 0. -/
def goLen {α : Type} : Option (List α) → Nat
  | none => 0
  | some l => l.length

/-- Append to a Go slice (`append(s, x)`); appending to `nil` yields a
non-nil one-element slice. -/
def goAppend {α : Type} : Option (List α) → α → Option (List α)
  | none, a => some [a]
  | some l, a => some (l ++ [a])

/-- Value of a non-empty all-digit character run. -/
def digitsVal (ds : List Char) : Option Nat :=
  if ds = [] then none
  else if ds.all Char.isDigit then
    some (ds.foldl (fun acc c => acc * 10 + (c.toNat - 48)) 0)
  else none

/-- `strconv.Atoi`: the whole string must be an optionally signed
decimal integer, otherwise it errors. -/
def atoi (s : String) : Option Int :=
  match s.data with
  | '-' :: ds => (digitsVal ds).map (fun n => -(n : Int))
  | '+' :: ds => (digitsVal ds).map (fun n => (n : Int))
  | ds => (digitsVal ds).map (fun n => (n : Int))

/-- `fmt.Sscan` of one integer operand: skip leading spaces, read an
optional sign and a maximal digit run, ignore whatever follows; error
only when no digits are found. -/
def sscanInt (s : String) : Option Int :=
  match (s.data).dropWhile (fun c => c = ' ') with
  | '-' :: ds => (digitsVal (ds.takeWhile Char.isDigit)).map (fun n => -(n : Int))
  | '+' :: ds => (digitsVal (ds.takeWhile Char.isDigit)).map (fun n => (n : Int))
  | ds => (digitsVal (ds.takeWhile Char.isDigit)).map (fun n => (n : Int))

end Go

namespace Ent

/-- An ent table backed by PostgreSQL: rows keyed by the serial integer
primary key, plus the next id the sequence will assign. -/
structure Table (α : Type) where
  rows : List (Int × α)
  nextId : Int
deriving DecidableEq, Repr

/-- First row of an association list with the given key. -/
def lookupRow {α : Type} : List (Int × α) → Int → Option α
  | [], _ => none
  | p :: ps, i => if p.1 = i then some p.2 else lookupRow ps i

/-- `Client.<T>.Get(ctx, id)`: the row with the given id, if any. -/
def Table.getRow {α : Type} (t : Table α) (i : Int) : Option α :=
  lookupRow t.rows i

/-- `Client.<T>.Create()....Save(ctx)`: append a fresh row under the
next serial id and return the assigned id. -/
def Table.insertRow {α : Type} (t : Table α) (a : α) : Table α × Int :=
  ({ rows := t.rows ++ [(t.nextId, a)], nextId := t.nextId + 1 }, t.nextId)

/-- `Client.<T>.UpdateOneID(id)....Save(ctx)`: apply the builder's
field assignments to the row with the given id, returning the updated
entity, or ent's `NotFoundError` (`none`) if the id does not exist. -/
def Table.updateRow {α : Type} (t : Table α) (i : Int) (f : α → α) :
    Option (Table α × α) :=
  match t.getRow i with
  | none => none
  | some r =>
    let r2 := f r
    some ({ t with rows := t.rows.map (fun p => if p.1 == i then (i, r2) else p) }, r2)

/-- `Client.<T>.DeleteOneID(id).Exec(ctx)`: remove the row, or return
ent's `NotFoundError` (`none`) when no row has that id. -/
def Table.deleteRow {α : Type} (t : Table α) (i : Int) : Option (Table α) :=
  if (t.getRow i).isSome then
    some { t with rows := t.rows.filter (fun p => !(p.1 == i)) }
  else none

/-- Table invariant maintained by serial id assignment: every existing
key is below the next id. -/
def Table.WF {α : Type} (t : Table α) : Prop :=
  ∀ p ∈ t.rows, p.1 < t.nextId

/-- Error of an ent `Save`: the generated field validators run first
(client-side, before any SQL executes) and report a validation error;
only then can the SQL layer report not-found. -/
inductive SaveError
  | validation
  | notFound
deriving DecidableEq, Repr

/-- `Save` on a create builder: the generated validators (`valid`) run
first; on success the row is appended under the next serial id. -/
def Table.saveCreate {α : Type} (t : Table α) (valid : Bool) (a : α) :
    Except SaveError (Table α × Int) :=
  if valid then Except.ok (t.insertRow a) else Except.error SaveError.validation

/-- `Save` on an `UpdateOneID` builder: the generated validators run on
the staged fields before the UPDATE, so a validation error precedes the
existence check. -/
def Table.saveUpdate {α : Type} (t : Table α) (i : Int) (valid : Bool) (f : α → α) :
    Except SaveError (Table α × α) :=
  if valid then
    match t.updateRow i f with
    | none => Except.error SaveError.notFound
    | some res => Except.ok res
  else Except.error SaveError.validation

/-- Row of the `projects` table of the `cmd/server` variant (schema
with the JSON-encoded `stacks` string column). -/
structure Projects where
  name : String
  imageUrl : String
  link : String
  description : String
  «stacks» : String
deriving DecidableEq, Repr

/-- Row of the `packages` table (schema with the `stacks` column). -/
structure Packages where
  name : String
  link : String
  description : String
  «stacks» : String
deriving DecidableEq, Repr

/-- Row of the `clients` table. -/
structure Clients where
  name : String
  link : String
  imageUrl : String
deriving DecidableEq, Repr

/-- ent's generated `check()` for a projects create (`cmd/server`
schema, src/unnamed/part_002): `name` `NotEmpty`, `description`
`MaxLen(1000)` — Go's `len`, i.e. UTF-8 byte length. -/
def Projects.createCheck (r : Projects) : Bool :=
  (r.name != "") && decide (r.description.utf8ByteSize ≤ 1000)

/-- ent's generated `check()` for a packages create (`cmd/server`
schema with stacks): `name` `NotEmpty` and `MaxLen(100)`,
`description` `MaxLen(1000)`. -/
def Packages.createCheck (r : Packages) : Bool :=
  (r.name != "") && decide (r.name.utf8ByteSize ≤ 100)
    && decide (r.description.utf8ByteSize ≤ 1000)

/-- ent's generated `check()` for a clients create: `name` `NotEmpty`
and `MaxLen(100)`. -/
def Clients.createCheck (r : Clients) : Bool :=
  (r.name != "") && decide (r.name.utf8ByteSize ≤ 100)

end Ent

namespace Models

/-- `models.ProjectData`: the decoded JSON body for project create and
update requests. `stacks` is a Go slice (`none` = `nil`, for a body
where the field is absent or `null`). -/
structure ProjectData where
  name : String
  imageUrl : String
  link : String
  description : String
  «stacks» : Option (List String)
deriving DecidableEq, Repr

/-- `models.PackageData`. -/
structure PackageData where
  name : String
  link : String
  description : String
  «stacks» : Option (List String)
deriving DecidableEq, Repr

/-- `models.ClientData`. -/
structure ClientData where
  name : String
  link : String
  imageUrl : String
deriving DecidableEq, Repr

/-- `models.ProjectResponse`: id plus the embedded project fields. -/
structure ProjectResponse where
  id : Int
  name : String
  imageUrl : String
  link : String
  description : String
  «stacks» : Option (List String)
deriving DecidableEq, Repr

/-- `models.PackageResponse`. -/
structure PackageResponse where
  id : Int
  name : String
  link : String
  description : String
  «stacks» : Option (List String)
deriving DecidableEq, Repr

/-- `models.ClientResponse`. -/
structure ClientResponse where
  id : Int
  name : String
  link : String
  imageUrl : String
deriving DecidableEq, Repr

end Models

/-- Result of one handler call: HTTP status, the JSON success body (if
any), and the store after the call. -/
structure HandlerOut (β : Type) (σ : Type) where
  status : Nat
  body : Option β
  store : σ
deriving DecidableEq, Repr

/-- Result of a list handler: the body is a Go slice of records, and a
`nil` slice (`none`) is encoded to the client as JSON `null`. -/
structure ListOut (β : Type) (σ : Type) where
  status : Nat
  body : Option (List β)
  store : σ
deriving DecidableEq, Repr

namespace Handlers

open Go Ent Models

/-- ent's `NotEmpty` validator on a staged optional field: it runs only
when the field was staged by a `Set*` call. -/
def checkNotEmpty : Option String → Bool
  | none => true
  | some s => s != ""

/-- ent's `MaxLen` validator on a staged optional field (Go byte
length). -/
def checkMaxLen (n : Nat) : Option String → Bool
  | none => true
  | some s => decide (s.utf8ByteSize ≤ n)

/-- `CreateProjectHandler` (`src/cmd/server/main.go`): validates the
four required fields (400), marshals `stacks` to its JSON string and
calls `Save`, whose generated schema validators run first — a failure
(e.g. a description over 1000 bytes) is reported as 500 with nothing
persisted; on success the row is inserted and the request data echoed
with the assigned id and 201. -/
def CreateProjectHandler (d : ProjectData) (t : Table Projects) :
    HandlerOut ProjectResponse (Table Projects) :=
  if d.name = "" then ⟨400, none, t⟩
  else if d.imageUrl = "" then ⟨400, none, t⟩
  else if d.link = "" then ⟨400, none, t⟩
  else if d.description = "" then ⟨400, none, t⟩
  else
    let stacksJSON := marshalStringList d.stacks
    let row : Projects :=
      { name := d.name, imageUrl := d.imageUrl, link := d.link,
        description := d.description, «stacks» := stacksJSON }
    match t.saveCreate row.createCheck row with
    | Except.error _ => ⟨500, none, t⟩
    | Except.ok ins =>
      ⟨201,
       some { id := ins.2, name := d.name, imageUrl := d.imageUrl, link := d.link,
              description := d.description, «stacks» := d.stacks },
       ins.1⟩

/-- Response row built by the project read paths: fields copied from
the row, `stacks` decoded with the error fallback. -/
def projectResponseOfRow (p : Int × Projects) : ProjectResponse :=
  { id := p.1, name := p.2.name, imageUrl := p.2.imageUrl, link := p.2.link,
    description := p.2.description, «stacks» := readStacks p.2.stacks }

/-- `GetProjectsHandler`: queries all rows and appends one response per
row to a `nil` slice; an empty table therefore produces a `nil` body
(encoded as JSON `null`). Always status 200 (store errors are outside
the model). -/
def GetProjectsHandler (t : Table Projects) : ListOut ProjectResponse (Table Projects) :=
  ⟨200, t.rows.foldl (fun acc p => goAppend acc (projectResponseOfRow p)) none, t⟩

/-- `GetProjectByIDHandler`: `strconv.Atoi` on the path id (400 on
failure), 404 on ent's not-found, otherwise 200 with the decoded
record. -/
def GetProjectByIDHandler (idStr : String) (t : Table Projects) :
    HandlerOut ProjectResponse (Table Projects) :=
  match atoi idStr with
  | none => ⟨400, none, t⟩
  | some id =>
    match t.getRow id with
    | none => ⟨404, none, t⟩
    | some p =>
      ⟨200,
       some { id := id, name := p.name, imageUrl := p.imageUrl, link := p.link,
              description := p.description, «stacks» := readStacks p.stacks },
       t⟩

/-- The pending field assignments of an ent `ProjectsUpdateOne`
builder. -/
structure ProjectsUpdateOne where
  setName : Option String := none
  setImageUrl : Option String := none
  setLink : Option String := none
  setDescription : Option String := none
  setStacks : Option String := none
deriving DecidableEq, Repr

/-- `check()` of a `ProjectsUpdateOne` builder: the validators run only
on the staged fields — `name` `NotEmpty`, `description`
`MaxLen(1000)`. -/
def ProjectsUpdateOne.check (u : ProjectsUpdateOne) : Bool :=
  checkNotEmpty u.setName && checkMaxLen 1000 u.setDescription

/-- Applying the builder's assignments to an existing row. -/
def applyProjectsUpdate (u : ProjectsUpdateOne) (r : Projects) : Projects :=
  { name := u.setName.getD r.name,
    imageUrl := u.setImageUrl.getD r.imageUrl,
    link := u.setLink.getD r.link,
    description := u.setDescription.getD r.description,
    «stacks» := u.setStacks.getD r.stacks }

/-- The sequence of conditional `Set*` calls of `UpdateProjectHandler`:
each field is staged only when the decoded value is non-empty, `stacks`
only when its length is positive. -/
def projectUpdateBuilder (d : ProjectData) : ProjectsUpdateOne :=
  let u0 : ProjectsUpdateOne := {}
  let u1 := if d.name ≠ "" then { u0 with setName := some d.name } else u0
  let u2 := if d.imageUrl ≠ "" then { u1 with setImageUrl := some d.imageUrl } else u1
  let u3 := if d.link ≠ "" then { u2 with setLink := some d.link } else u2
  let u4 := if d.description ≠ "" then { u3 with setDescription := some d.description } else u3
  if goLen d.stacks > 0 then
    { u4 with setStacks := some (marshalStringList d.stacks) } else u4

/-- `UpdateProjectHandler` (`src/cmd/server/main.go`): 400 only when the
id segment is empty; the `fmt.Sscan` error is discarded, so an
unparsable id leaves the scanned id at 0. Each non-empty body field is
staged on the builder, `stacks` only when `len > 0`; any save error
(including ent's not-found) is reported as 500. -/
def UpdateProjectHandler (idStr : String) (d : ProjectData) (t : Table Projects) :
    HandlerOut ProjectResponse (Table Projects) :=
  if idStr = "" then ⟨400, none, t⟩
  else
    let id : Int := (sscanInt idStr).getD 0
    match t.saveUpdate id (projectUpdateBuilder d).check
        (applyProjectsUpdate (projectUpdateBuilder d)) with
    | Except.error _ => ⟨500, none, t⟩
    | Except.ok (t2, p) =>
      ⟨200,
       some { id := id, name := p.name, imageUrl := p.imageUrl, link := p.link,
              description := p.description, «stacks» := readStacks p.stacks },
       t2⟩

/-- `DeleteProjectHandler` (`src/cmd/server/main.go`): 400 when the id
segment is empty or `fmt.Sscan` fails (this handler checks the error);
every delete error, ent's not-found included, is reported as 500. -/
def DeleteProjectHandler (idStr : String) (t : Table Projects) :
    HandlerOut String (Table Projects) :=
  if idStr = "" then ⟨400, none, t⟩
  else
    match sscanInt idStr with
    | none => ⟨400, none, t⟩
    | some id =>
      match t.deleteRow id with
      | none => ⟨500, none, t⟩
      | some t2 => ⟨200, some "Project deleted successfully", t2⟩

/-- `CreatePackageHandler` (`src/cmd/server/main.go`): only `name` is
validated; `link` and `description` are stored as sent (possibly
empty). -/
def CreatePackageHandler (d : PackageData) (t : Table Packages) :
    HandlerOut PackageResponse (Table Packages) :=
  if d.name = "" then ⟨400, none, t⟩
  else
    let stacksJSON := marshalStringList d.stacks
    let row : Packages :=
      { name := d.name, link := d.link, description := d.description,
        «stacks» := stacksJSON }
    match t.saveCreate row.createCheck row with
    | Except.error _ => ⟨500, none, t⟩
    | Except.ok ins =>
      ⟨201,
       some { id := ins.2, name := d.name, link := d.link,
              description := d.description, «stacks» := d.stacks },
       ins.1⟩

/-- The pending field assignments of an ent `PackagesUpdateOne`
builder. -/
structure PackagesUpdateOne where
  setName : Option String := none
  setLink : Option String := none
  setDescription : Option String := none
  setStacks : Option String := none
deriving DecidableEq, Repr

/-- `check()` of a `PackagesUpdateOne` builder: `name` `NotEmpty` and
`MaxLen(100)`, `description` `MaxLen(1000)`, each only when staged. -/
def PackagesUpdateOne.check (u : PackagesUpdateOne) : Bool :=
  checkNotEmpty u.setName && checkMaxLen 100 u.setName
    && checkMaxLen 1000 u.setDescription

/-- Applying the builder's assignments to an existing row. -/
def applyPackagesUpdate (u : PackagesUpdateOne) (r : Packages) : Packages :=
  { name := u.setName.getD r.name,
    link := u.setLink.getD r.link,
    description := u.setDescription.getD r.description,
    «stacks» := u.setStacks.getD r.stacks }

/-- The sequence of conditional `Set*` calls of `UpdatePackageHandler`. -/
def packageUpdateBuilder (d : PackageData) : PackagesUpdateOne :=
  let u0 : PackagesUpdateOne := {}
  let u1 := if d.name ≠ "" then { u0 with setName := some d.name } else u0
  let u2 := if d.link ≠ "" then { u1 with setLink := some d.link } else u1
  let u3 := if d.description ≠ "" then { u2 with setDescription := some d.description } else u2
  if goLen d.stacks > 0 then
    { u3 with setStacks := some (marshalStringList d.stacks) } else u3

/-- `UpdatePackageHandler` (`src/cmd/server/main.go`): `strconv.Atoi`
on the id (400 on failure), sparse merge like the project update; the
staged-field validators run inside `Save` before the existence check,
so a validation failure is a 500, while ent's not-found is
distinguished and reported as 404. -/
def UpdatePackageHandler (idStr : String) (d : PackageData) (t : Table Packages) :
    HandlerOut PackageResponse (Table Packages) :=
  match atoi idStr with
  | none => ⟨400, none, t⟩
  | some id =>
    match t.saveUpdate id (packageUpdateBuilder d).check
        (applyPackagesUpdate (packageUpdateBuilder d)) with
    | Except.error SaveError.notFound => ⟨404, none, t⟩
    | Except.error _ => ⟨500, none, t⟩
    | Except.ok (t2, p) =>
      ⟨200,
       some { id := id, name := p.name, link := p.link,
              description := p.description, «stacks» := readStacks p.stacks },
       t2⟩

/-- `CreateClientHandler` (`internal/handlers/client_handlers.go`):
validates `name`, `link` and `imageUrl`. -/
def CreateClientHandler (d : ClientData) (t : Table Clients) :
    HandlerOut ClientResponse (Table Clients) :=
  if d.name = "" then ⟨400, none, t⟩
  else if d.link = "" then ⟨400, none, t⟩
  else if d.imageUrl = "" then ⟨400, none, t⟩
  else
    let row : Clients := { name := d.name, link := d.link, imageUrl := d.imageUrl }
    match t.saveCreate row.createCheck row with
    | Except.error _ => ⟨500, none, t⟩
    | Except.ok ins =>
      ⟨201,
       some { id := ins.2, name := d.name, link := d.link, imageUrl := d.imageUrl },
       ins.1⟩

/-- Response row built by the client read paths. -/
def clientResponseOfRow (p : Int × Clients) : ClientResponse :=
  { id := p.1, name := p.2.name, link := p.2.link, imageUrl := p.2.imageUrl }

/-- `GetClientsHandler`: same shape as `GetProjectsHandler`, so an
empty table produces a `nil` body (JSON `null`). -/
def GetClientsHandler (t : Table Clients) : ListOut ClientResponse (Table Clients) :=
  ⟨200, t.rows.foldl (fun acc p => goAppend acc (clientResponseOfRow p)) none, t⟩

/-- The pending field assignments of an ent `ClientsUpdateOne`
builder. -/
structure ClientsUpdateOne where
  setName : Option String := none
  setLink : Option String := none
  setImageUrl : Option String := none
deriving DecidableEq, Repr

/-- `check()` of a `ClientsUpdateOne` builder: `name` `NotEmpty` and
`MaxLen(100)`, only when staged. -/
def ClientsUpdateOne.check (u : ClientsUpdateOne) : Bool :=
  checkNotEmpty u.setName && checkMaxLen 100 u.setName

/-- Applying the builder's assignments to an existing row. -/
def applyClientsUpdate (u : ClientsUpdateOne) (r : Clients) : Clients :=
  { name := u.setName.getD r.name,
    link := u.setLink.getD r.link,
    imageUrl := u.setImageUrl.getD r.imageUrl }

/-- The sequence of conditional `Set*` calls of `UpdateClientHandler`. -/
def clientUpdateBuilder (d : ClientData) : ClientsUpdateOne :=
  let u0 : ClientsUpdateOne := {}
  let u1 := if d.name ≠ "" then { u0 with setName := some d.name } else u0
  let u2 := if d.link ≠ "" then { u1 with setLink := some d.link } else u1
  if d.imageUrl ≠ "" then { u2 with setImageUrl := some d.imageUrl } else u2

/-- `UpdateClientHandler` (`internal/handlers/client_handlers.go`):
same id handling as the project update (`fmt.Sscan` error discarded),
sparse merge on the three fields, any save error reported as 500. -/
def UpdateClientHandler (idStr : String) (d : ClientData) (t : Table Clients) :
    HandlerOut ClientResponse (Table Clients) :=
  if idStr = "" then ⟨400, none, t⟩
  else
    let id : Int := (sscanInt idStr).getD 0
    match t.saveUpdate id (clientUpdateBuilder d).check
        (applyClientsUpdate (clientUpdateBuilder d)) with
    | Except.error _ => ⟨500, none, t⟩
    | Except.ok (t2, p) =>
      ⟨200, some { id := id, name := p.name, link := p.link, imageUrl := p.imageUrl }, t2⟩

end Handlers

namespace MainGo

open Go Ent

/-- Row of the `packages` table generated from the schema variant
without a `stacks` column, as used by `src/main.go`. -/
structure Packages where
  name : String
  link : String
  description : String
deriving DecidableEq, Repr

/-- Decoded update body of `src/main.go`'s `UpdatePackageHandler`. -/
structure PackageData where
  name : String
  link : String
  description : String
deriving DecidableEq, Repr

/-- Response: the ent entity (id plus current field values). -/
structure PackageResponse where
  id : Int
  name : String
  link : String
  description : String
deriving DecidableEq, Repr

/-- `UpdatePackageHandler` (`src/main.go`): `fmt.Sscan` with the error
checked (400 on failure), 400 when `name` is empty, then
`SetName`/`SetLink`/`SetDescription` are all called unconditionally,
so the request values overwrite every field, empty or not; ent's
not-found is reported as 404. This variant pairs with the schema
without `MaxLen` validators, so the only staged validator is `name`'s
`NotEmpty`, which the handler's own 400 check already guarantees. -/
def UpdatePackageHandler (idStr : String) (d : PackageData) (t : Table Packages) :
    HandlerOut PackageResponse (Table Packages) :=
  match sscanInt idStr with
  | none => ⟨400, none, t⟩
  | some id =>
    if d.name = "" then ⟨400, none, t⟩
    else
      match t.saveUpdate id (d.name != "")
          (fun _ => { name := d.name, link := d.link, description := d.description }) with
      | Except.error Ent.SaveError.notFound => ⟨404, none, t⟩
      | Except.error _ => ⟨500, none, t⟩
      | Except.ok (t2, p) =>
        ⟨200, some { id := id, name := p.name, link := p.link, description := p.description }, t2⟩

end MainGo

namespace Fs

open Go

/-- The `Project` struct of the Firestore variant
(`src/unnamed/part_000`); the `ID` field is part of the decoded JSON
body and of the stored document. -/
structure Project where
  id : String
  name : String
  imageUrl : String
  link : String
  description : String
deriving DecidableEq, Repr

/-- The Firestore `projects-manager` collection: documents keyed by
their document id, plus a counter standing in for Firestore's id
generator. -/
structure Store where
  docs : List (String × Project)
  counter : Nat
deriving DecidableEq, Repr

/-- `Collection(...).Add(ctx, project)`: store the document under a
fresh generated id. -/
def Store.addDoc (st : Store) (p : Project) : Store × String :=
  let gid := "g" ++ toString st.counter
  ({ docs := st.docs ++ [(gid, p)], counter := st.counter + 1 }, gid)

/-- `CreateProjectHandler` of the Firestore variant: only `name` is
validated; `imageUrl`, `link` and `description` are stored as sent. -/
def CreateProjectHandler (p : Project) (st : Store) : HandlerOut Project Store :=
  if p.name = "" then ⟨400, none, st⟩
  else
    let add := st.addDoc p
    ⟨201, some { p with id := add.2 }, add.1⟩

/-- `DeleteProjectHandler` of the Firestore variant:
`Doc(id).Delete(ctx)` succeeds whether or not the document exists, so
the handler always answers 200. -/
def DeleteProjectHandler (docId : String) (st : Store) : HandlerOut String Store :=
  ⟨200, some "Project deleted successfully",
   { st with docs := st.docs.filter (fun q => !(q.1 == docId)) }⟩

end Fs

namespace Go

theorem skipWs_length_le : ∀ cs : List Char, (skipWs cs).length ≤ cs.length := by
  intro cs
  induction cs with
  | nil => simp [skipWs]
  | cons c r ih =>
    simp only [skipWs]
    split
    · exact Nat.le_trans ih (Nat.le_succ _)
    · simp

theorem decStr_length_lt :
    ∀ cs s r, decStr cs = some (s, r) → r.length < cs.length := by
  intro cs
  induction cs using decStr.induct with
  | case1 => intro s r h; simp [decStr] at h
  | case2 r2 =>
    intro s rest h
    rw [decStr.eq_def] at h
    simp at h
    obtain ⟨h1, h2⟩ := h
    subst h2
    simp
  | case3 hq =>
    intro s rest h
    rw [decStr.eq_def] at h
    simp at h
  | case4 a b c2 d r3 x y z w hw hz hy hx hq ih =>
    intro s rest h
    rw [decStr.eq_def] at h
    simp [hx, hy, hz, hw, Option.map_eq_some'] at h
    obtain ⟨s1, hrec, h1⟩ := h
    have := ih s1 rest hrec
    simp only [List.length_cons]
    omega
  | case5 a b c2 d r3 hfail hq =>
    intro s rest h
    rw [decStr.eq_def] at h
    cases hva : hexDigitVal a with
    | none => simp [hva] at h
    | some x =>
      cases hvb : hexDigitVal b with
      | none => simp [hva, hvb] at h
      | some y =>
        cases hvc : hexDigitVal c2 with
        | none => simp [hva, hvb, hvc] at h
        | some z =>
          cases hvd : hexDigitVal d with
          | none => simp [hva, hvb, hvc, hvd] at h
          | some w => exact (hfail x y z w hva hvb hvc hvd).elim
  | case6 r2 hshape hq =>
    intro s rest h
    rw [decStr.eq_def] at h
    match r2, hshape with
    | [], _ => simp at h
    | [a], _ => simp at h
    | [a, b], _ => simp at h
    | [a, b, c2], _ => simp at h
    | a :: b :: c2 :: d :: r3, hshape => exact (hshape a b c2 d r3 rfl).elim
  | case7 e r2 hneu ec hec hq ih =>
    intro s rest h
    rw [decStr.eq_def] at h
    simp [hneu, hec, Option.map_eq_some'] at h
    obtain ⟨s1, hrec, h1⟩ := h
    have := ih s1 rest hrec
    simp only [List.length_cons]
    omega
  | case8 e r2 hneu hec hq =>
    intro s rest h
    rw [decStr.eq_def] at h
    simp [hneu, hec] at h
  | case9 e r2 hq hb hctl =>
    intro s rest h
    rw [decStr.eq_def] at h
    simp [hq, hb, hctl] at h
  | case10 e r2 hq hb hctl ih =>
    intro s rest h
    rw [decStr.eq_def] at h
    simp [hq, hb, hctl, Option.map_eq_some'] at h
    obtain ⟨s1, hrec, h1⟩ := h
    have := ih s1 rest hrec
    simp only [List.length_cons]
    omega

theorem skipWs_not_ws {c : Char} (h : isWs c = false) (r : List Char) :
    skipWs (c :: r) = c :: r := by
  simp [skipWs, h]

/-- `hexDigitChar` and `hexDigitVal` invert each other below 16. -/
theorem hexDigitVal_hexDigitChar : ∀ m, m < 16 → hexDigitVal (hexDigitChar m) = some m := by
  decide

/-- Decoding after encoding one character consumes exactly that
character. -/
theorem decStr_encodeChar (c : Char) (tail : List Char) :
    decStr (encodeChar c ++ tail) = (decStr tail).map (fun p => (c :: p.1, p.2)) := by
  unfold encodeChar
  split_ifs with h1 h2 h3 h4 h5 h6
  · subst h1
    rw [decStr.eq_def]
    simp [unescapeChar]
  · subst h2
    rw [decStr.eq_def]
    simp [unescapeChar]
  · subst h3
    rw [decStr.eq_def]
    simp [unescapeChar]
  · subst h4
    rw [decStr.eq_def]
    simp [unescapeChar]
  · subst h5
    rw [decStr.eq_def]
    simp [unescapeChar]
  · have hb : c.toNat ≤ 8233 := by
      rcases h6 with h | h | h | h | h | h
      · omega
      · subst h; decide
      · subst h; decide
      · subst h; decide
      · omega
      · omega
    have e1 := hexDigitVal_hexDigitChar (c.toNat / 4096 % 16) (by omega)
    have e2 := hexDigitVal_hexDigitChar (c.toNat / 256 % 16) (by omega)
    have e3 := hexDigitVal_hexDigitChar (c.toNat / 16 % 16) (by omega)
    have e4 := hexDigitVal_hexDigitChar (c.toNat % 16) (by omega)
    rw [decStr.eq_def]
    simp only [hex4, List.cons_append, List.nil_append]
    simp [e1, e2, e3, e4]
    have hv : ((c.toNat / 4096 % 16 * 16 + c.toNat / 256 % 16) * 16 + c.toNat / 16 % 16) * 16
        + c.toNat % 16 = c.toNat := by omega
    rw [hv, Char.ofNat_toNat]
  · rw [decStr.eq_def]
    simp [h1, h2]
    intro hc
    exact (h6 (Or.inl hc)).elim

/-- Round trip for a whole JSON string body: decoding stops at the
closing quote and recovers the original characters. -/
theorem decStr_encodeStringBody (cs rest : List Char) :
    decStr (encodeStringBody cs ++ '"' :: rest) = some (cs, rest) := by
  induction cs with
  | nil =>
    rw [encodeStringBody, List.flatMap_nil, List.nil_append, decStr.eq_def]
    simp
  | cons c cs ih =>
    rw [encodeStringBody, List.flatMap_cons, List.append_assoc, decStr_encodeChar]
    rw [encodeStringBody] at ih
    rw [ih]
    simp

theorem stringMk_data (s : String) : String.mk s.data = s := rfl

theorem quoteString_length (x : String) : 2 ≤ (quoteString x).length := by
  rw [quoteString]
  simp

theorem encodeStringArrayCore_head (y : String) (ys : List String) :
    ∃ t, encodeStringArrayCore (y :: ys) = '"' :: t := by
  match ys with
  | [] =>
    refine ⟨encodeStringBody y.data ++ ['"'], ?_⟩
    rw [encodeStringArrayCore, quoteString]
    simp
  | z :: zs =>
    refine ⟨encodeStringBody y.data ++ ['"'] ++ ',' :: encodeStringArrayCore (z :: zs), ?_⟩
    rw [encodeStringArrayCore, quoteString]
    simp

theorem encodeStringArrayCore_cons3_length (x y : String) (ys : List String) :
    (encodeStringArrayCore (y :: ys)).length + 3 ≤
      (encodeStringArrayCore (x :: y :: ys)).length := by
  rw [encodeStringArrayCore]
  simp only [List.length_append, List.length_cons]
  have := quoteString_length x
  omega

/-- A quoted element parses back to the original string. -/
theorem parseElem_quote (x : String) (tail : List Char) :
    parseElem ('"' :: (encodeStringBody x.data ++ '"' :: tail)) = some (x, tail) := by
  rw [parseElem, decStr_encodeStringBody]
  simp [stringMk_data]

/-- The elements of a marshalled non-empty `[]string` parse back to
exactly those elements, for any sufficient fuel. -/
theorem parseElemsF_round :
    ∀ (xs : List String) (x : String) (rest : List Char) (fuel : Nat),
      (encodeStringArrayCore (x :: xs)).length < fuel →
      parseElemsF fuel (encodeStringArrayCore (x :: xs) ++ ']' :: rest) =
        some (x :: xs, rest) := by
  intro xs
  induction xs with
  | nil =>
    intro x rest fuel hfuel
    have h2 : 2 ≤ (encodeStringArrayCore [x]).length := by
      rw [encodeStringArrayCore]; exact quoteString_length x
    obtain ⟨fuel, rfl⟩ : ∃ f, fuel = f + 1 := ⟨fuel - 1, by omega⟩
    rw [encodeStringArrayCore, quoteString]
    simp only [List.cons_append, List.append_assoc, List.nil_append]
    rw [parseElemsF.eq_2, parseElem_quote]
    simp [skipWs_not_ws (show isWs ']' = false by decide)]
  | cons y ys ih =>
    intro x rest fuel hfuel
    have h2 : 2 ≤ (encodeStringArrayCore (x :: y :: ys)).length := by
      rw [encodeStringArrayCore]
      simp only [List.length_append, List.length_cons]
      have := quoteString_length x
      omega
    obtain ⟨fuel, rfl⟩ : ∃ f, fuel = f + 1 := ⟨fuel - 1, by omega⟩
    rw [encodeStringArrayCore, quoteString]
    simp only [List.cons_append, List.append_assoc, List.nil_append]
    rw [parseElemsF.eq_2, parseElem_quote]
    obtain ⟨t, ht⟩ := encodeStringArrayCore_head y ys
    have hskip : skipWs (encodeStringArrayCore (y :: ys) ++ ']' :: rest) =
        encodeStringArrayCore (y :: ys) ++ ']' :: rest := by
      rw [ht]
      exact skipWs_not_ws (by decide) _
    have hbound : (encodeStringArrayCore (y :: ys)).length < fuel := by
      have := encodeStringArrayCore_cons3_length x y ys
      omega
    simp only [skipWs_not_ws (show isWs ',' = false by decide)]
    rw [hskip, ih y rest fuel hbound]
    simp [stringMk_data]

theorem data_stringMk (l : List Char) : (String.mk l).data = l := rfl

theorem parseStringArray_bracket (t : List Char) (res : List String)
    (hp : parseElems ('"' :: (t ++ [']'])) = some (res, [])) :
    parseStringArray (String.mk ('[' :: '"' :: (t ++ [']']))) = some res := by
  rw [parseStringArray, data_stringMk]
  rw [skipWs_not_ws (by decide)]
  simp only [skipWs_not_ws (show isWs '"' = false by decide)]
  simp [hp, skipWs]

/-- Unmarshalling a marshalled `[]string` recovers the Go value,
`nil`-ness included. -/
theorem unmarshal_marshal (gs : Option (List String)) :
    unmarshalStringList (marshalStringList gs) = some gs := by
  match gs with
  | none => rfl
  | some [] => rfl
  | some (x :: xs) =>
    obtain ⟨t, ht⟩ := encodeStringArrayCore_head x xs
    have hnull : isNullToken (marshalStringList (some (x :: xs))) = false := rfl
    have hp : parseElems ('"' :: (t ++ [']'])) = some (x :: xs, []) := by
      have h0 : '"' :: (t ++ [']']) = encodeStringArrayCore (x :: xs) ++ ']' :: [] := by
        rw [ht]; simp
      rw [h0, parseElems]
      apply parseElemsF_round
      simp only [List.length_append, List.length_cons]
      omega
    have hm : marshalStringList (some (x :: xs)) =
        String.mk ('[' :: '"' :: (t ++ [']'])) := by
      rw [marshalStringList, ht]
      simp
    rw [unmarshalStringList, hnull, hm, parseStringArray_bracket t (x :: xs) hp]
    simp

/-- `readStacks` after `marshalStringList` is the identity on Go
slices: the column written for a slice reads back as that slice. -/
theorem readStacks_marshal (gs : Option (List String)) :
    readStacks (marshalStringList gs) = gs := by
  rw [readStacks, unmarshal_marshal]

end Go

namespace Ent

theorem lookupRow_append_fresh {α : Type} (rows : List (Int × α)) (n : Int) (a : α)
    (h : ∀ p ∈ rows, p.1 ≠ n) : lookupRow (rows ++ [(n, a)]) n = some a := by
  induction rows with
  | nil => simp [lookupRow]
  | cons p ps ih =>
    have hp : p.1 ≠ n := h p (by simp)
    simp only [List.cons_append, lookupRow, if_neg hp]
    exact ih (fun q hq => h q (by simp [hq]))

theorem lookupRow_append_other {α : Type} (rows : List (Int × α)) (n : Int) (a : α)
    (j : Int) (hne : j ≠ n) :
    lookupRow (rows ++ [(n, a)]) j = lookupRow rows j := by
  induction rows with
  | nil => simp [lookupRow, Ne.symm hne]
  | cons p ps ih =>
    by_cases hp : p.1 = j
    · simp [lookupRow, hp]
    · simp only [List.cons_append, lookupRow, if_neg hp]
      exact ih

theorem lookupRow_filter_self {α : Type} (rows : List (Int × α)) (i : Int) :
    lookupRow (rows.filter (fun p => !(p.1 == i))) i = none := by
  induction rows with
  | nil => rfl
  | cons p ps ih =>
    by_cases hp : p.1 = i
    · rw [List.filter_cons_of_neg (by simp [hp])]
      exact ih
    · rw [List.filter_cons_of_pos (by simp [hp]), lookupRow, if_neg hp]
      exact ih

theorem lookupRow_filter_other {α : Type} (rows : List (Int × α)) (i j : Int)
    (hne : j ≠ i) :
    lookupRow (rows.filter (fun p => !(p.1 == i))) j = lookupRow rows j := by
  induction rows with
  | nil => rfl
  | cons p ps ih =>
    by_cases hp : p.1 = i
    · rw [List.filter_cons_of_neg (by simp [hp]), lookupRow,
        if_neg (by omega : ¬p.1 = j)]
      exact ih
    · rw [List.filter_cons_of_pos (by simp [hp])]
      by_cases hj : p.1 = j
      · rw [lookupRow, lookupRow, if_pos hj, if_pos hj]
      · rw [lookupRow, lookupRow, if_neg hj, if_neg hj]
        exact ih

/-- A serial-id table never contains its next id, so the inserted row
is found under the returned id. -/
theorem Table.getRow_insert_self {α : Type} (t : Table α) (a : α) (hwf : t.WF) :
    (t.insertRow a).1.getRow t.nextId = some a := by
  rw [Table.insertRow, Table.getRow]
  exact lookupRow_append_fresh t.rows t.nextId a
    (fun p hp => by have := hwf p hp; omega)

/-- Inserting does not disturb other ids. -/
theorem Table.getRow_insert_other {α : Type} (t : Table α) (a : α) (j : Int)
    (hne : j ≠ t.nextId) :
    (t.insertRow a).1.getRow j = t.getRow j := by
  rw [Table.insertRow, Table.getRow, Table.getRow]
  exact lookupRow_append_other t.rows t.nextId a j hne

theorem Table.updateRow_missing {α : Type} (t : Table α) (i : Int) (f : α → α)
    (h : t.getRow i = none) : t.updateRow i f = none := by
  rw [Table.updateRow, h]

theorem Table.deleteRow_missing {α : Type} (t : Table α) (i : Int)
    (h : t.getRow i = none) : t.deleteRow i = none := by
  rw [Table.deleteRow, h]
  rfl

theorem Table.deleteRow_found {α : Type} (t : Table α) (i : Int) (r : α)
    (h : t.getRow i = some r) :
    t.deleteRow i =
      some { rows := t.rows.filter (fun p => !(p.1 == i)), nextId := t.nextId } := by
  rw [Table.deleteRow, h]
  rfl

/-- After a successful delete, the id is gone. -/
theorem Table.getRow_delete_self {α : Type} (t : Table α) (i : Int) :
    (Table.mk (t.rows.filter (fun p => !(p.1 == i))) t.nextId).getRow i = none := by
  rw [Table.getRow]
  exact lookupRow_filter_self t.rows i

/-- A delete does not disturb other ids. -/
theorem Table.getRow_delete_other {α : Type} (t : Table α) (i j : Int) (hne : j ≠ i) :
    (Table.mk (t.rows.filter (fun p => !(p.1 == i))) t.nextId).getRow j = t.getRow j := by
  rw [Table.getRow, Table.getRow]
  exact lookupRow_filter_other t.rows i j hne

/-- A create whose validators pass persists the row. -/
theorem Table.saveCreate_valid {α : Type} (t : Table α) (a : α) :
    t.saveCreate true a = Except.ok (t.insertRow a) := rfl

/-- A create whose validators fail persists nothing. -/
theorem Table.saveCreate_invalid {α : Type} (t : Table α) (a : α) :
    t.saveCreate false a = Except.error SaveError.validation := rfl

/-- An update whose staged-field validators fail errors before the
existence check and touches nothing. -/
theorem Table.saveUpdate_invalid {α : Type} (t : Table α) (i : Int) (f : α → α) :
    t.saveUpdate i false f = Except.error SaveError.validation := rfl

theorem Table.saveUpdate_missing {α : Type} (t : Table α) (i : Int) (f : α → α)
    (h : t.getRow i = none) :
    t.saveUpdate i true f = Except.error SaveError.notFound := by
  rw [Table.saveUpdate]
  simp [Table.updateRow_missing t i f h]

end Ent

namespace Handlers

open Go Ent Models

/-- The package update builder passes ent's staged-field validators
whenever a staged name is within 100 bytes and a staged description
within 1000. -/
theorem packageUpdateBuilder_check (d : PackageData)
    (hn : d.name ≠ "" → d.name.utf8ByteSize ≤ 100)
    (hd : d.description ≠ "" → d.description.utf8ByteSize ≤ 1000) :
    (packageUpdateBuilder d).check = true := by
  simp only [packageUpdateBuilder, PackagesUpdateOne.check]
  split_ifs <;> simp_all [checkNotEmpty, checkMaxLen]

end Handlers

/-- C8, counterexample: against an empty store, `GetProjectsHandler`
leaves the response slice `nil`, so the body is JSON `null` and not a
zero-element array, refuting the claim as stated at this input. -/
theorem C8_counterexample :
    (Handlers.GetProjectsHandler (⟨[], 1⟩ : Ent.Table Ent.Projects)).body = none ∧
    ¬ ((Handlers.GetProjectsHandler (⟨[], 1⟩ : Ent.Table Ent.Projects)).body =
        some []) := by
  decide

/-- C8 (amended): for every ListAll call against a store containing no
records, the handler answers 200 and never an error, but the body is
the `nil` slice (serialized as JSON `null`), not a zero-element
array. -/
theorem C8_list_empty :
    (∀ t : Ent.Table Ent.Projects,
      (Handlers.GetProjectsHandler t).status = 200 ∧
      (t.rows = [] → (Handlers.GetProjectsHandler t).body = none)) ∧
    (∀ t : Ent.Table Ent.Clients,
      (Handlers.GetClientsHandler t).status = 200 ∧
      (t.rows = [] → (Handlers.GetClientsHandler t).body = none)) := by
  constructor
  · intro t
    refine ⟨rfl, fun h => ?_⟩
    simp [Handlers.GetProjectsHandler, h]
  · intro t
    refine ⟨rfl, fun h => ?_⟩
    simp [Handlers.GetClientsHandler, h]

/-- C8, witness: the amended theorem applied to the empty tables. -/
theorem C8_witness :
    ((Handlers.GetProjectsHandler (⟨[], 1⟩ : Ent.Table Ent.Projects)).status = 200 ∧
     (Handlers.GetProjectsHandler (⟨[], 1⟩ : Ent.Table Ent.Projects)).body = none) ∧
    ((Handlers.GetClientsHandler (⟨[], 1⟩ : Ent.Table Ent.Clients)).status = 200 ∧
     (Handlers.GetClientsHandler (⟨[], 1⟩ : Ent.Table Ent.Clients)).body = none) :=
  ⟨⟨(C8_list_empty.1 ⟨[], 1⟩).1, (C8_list_empty.1 ⟨[], 1⟩).2 rfl⟩,
   ⟨(C8_list_empty.2 ⟨[], 1⟩).1, (C8_list_empty.2 ⟨[], 1⟩).2 rfl⟩⟩

/-- C6: evaluation of the relational update handlers at the failing
input `PUT /api/projects/abc`: the project handler ignores the
`fmt.Sscan` failure, proceeds with id 0 and reports the failed store
update as 500 instead of the claimed 400, while the package handler
(using `strconv.Atoi`) does answer 400. -/
theorem C6_evaluation :
    (Handlers.UpdateProjectHandler "abc" ⟨"n", "i", "l", "d", none⟩
        (⟨[], 1⟩ : Ent.Table Ent.Projects)).status = 500 ∧
    ¬ ((Handlers.UpdateProjectHandler "abc" ⟨"n", "i", "l", "d", none⟩
        (⟨[], 1⟩ : Ent.Table Ent.Projects)).status = 400) ∧
    (Handlers.UpdatePackageHandler "abc" ⟨"n", "l", "d", none⟩
        (⟨[], 1⟩ : Ent.Table Ent.Packages)).status = 400 := by
  decide

/-- C5, counterexample: deleting a missing id in the relational variant
answers 500, not the claimed 404: the handler wraps every delete error,
ent's not-found included, in a 500. -/
theorem C5_counterexample :
    (Handlers.DeleteProjectHandler "3" (⟨[], 1⟩ : Ent.Table Ent.Projects)).status = 500 ∧
    ¬ ((Handlers.DeleteProjectHandler "3"
          (⟨[], 1⟩ : Ent.Table Ent.Projects)).status = 404) := by
  decide

/-- C5 (amended): deleting an id matching no record fails in the
relational variant — the store's not-found error is reported as 500,
not 404 — while the document-store variant answers 200
unconditionally; in both variants the store state is unchanged. -/
theorem C5_delete_missing :
    (∀ (idStr : String) (t : Ent.Table Ent.Projects) (id : Int),
      idStr ≠ "" → Go.sscanInt idStr = some id → t.getRow id = none →
      Handlers.DeleteProjectHandler idStr t = ⟨500, none, t⟩) ∧
    (∀ (docId : String) (st : Fs.Store),
      (∀ q ∈ st.docs, q.1 ≠ docId) →
      Fs.DeleteProjectHandler docId st =
        ⟨200, some "Project deleted successfully", st⟩) := by
  constructor
  · intro idStr t id hne hscan hget
    simp only [Handlers.DeleteProjectHandler, if_neg hne, hscan]
    rw [Ent.Table.deleteRow_missing t id hget]
  · intro docId st h
    have hf : st.docs.filter (fun q => !(q.1 == docId)) = st.docs :=
      List.filter_eq_self.mpr (fun q hq => by simpa using h q hq)
    simp [Fs.DeleteProjectHandler, hf]

/-- C5, witness: the amended theorem applied to an empty relational
table and an empty document store. -/
theorem C5_witness :
    Handlers.DeleteProjectHandler "3" (⟨[], 1⟩ : Ent.Table Ent.Projects) =
      ⟨500, none, ⟨[], 1⟩⟩ ∧
    Fs.DeleteProjectHandler "x" (⟨[], 0⟩ : Fs.Store) =
      ⟨200, some "Project deleted successfully", ⟨[], 0⟩⟩ :=
  ⟨C5_delete_missing.1 "3" ⟨[], 1⟩ 3 (by decide) (by decide) rfl,
   C5_delete_missing.2 "x" ⟨[], 0⟩ (by simp)⟩

/-- C3, counterexample: an update of a parseable but unknown project id
answers 500, not the claimed 404: `UpdateProjectHandler` maps every
save error, ent's not-found included, to 500. -/
theorem C3_counterexample :
    (Handlers.UpdateProjectHandler "5" ⟨"n", "i", "l", "d", none⟩
        (⟨[], 1⟩ : Ent.Table Ent.Projects)).status = 500 ∧
    ¬ ((Handlers.UpdateProjectHandler "5" ⟨"n", "i", "l", "d", none⟩
        (⟨[], 1⟩ : Ent.Table Ent.Projects)).status = 404) := by
  decide

/-- C3 (amended): an UpdateByID whose id parses but matches no record
fails with the store's not-found error and leaves the store unchanged;
the package update handler reports it as 404 — provided the staged
fields pass the schema validators (staged name within 100 bytes,
staged description within 1000), since a validator failure inside
`Save` is reported as 500 before the existence check — while the
project and client update handlers report every save error as 500. -/
theorem C3_update_missing :
    (∀ (idStr : String) (d : Models.PackageData) (t : Ent.Table Ent.Packages)
        (id : Int),
      Go.atoi idStr = some id → t.getRow id = none →
      (d.name ≠ "" → d.name.utf8ByteSize ≤ 100) →
      (d.description ≠ "" → d.description.utf8ByteSize ≤ 1000) →
      Handlers.UpdatePackageHandler idStr d t = ⟨404, none, t⟩) ∧
    (∀ (idStr : String) (d : Models.PackageData) (t : Ent.Table Ent.Packages)
        (id : Int),
      Go.atoi idStr = some id →
      (Handlers.packageUpdateBuilder d).check = false →
      Handlers.UpdatePackageHandler idStr d t = ⟨500, none, t⟩) ∧
    (∀ (idStr : String) (d : Models.ProjectData) (t : Ent.Table Ent.Projects)
        (id : Int),
      idStr ≠ "" → Go.sscanInt idStr = some id → t.getRow id = none →
      Handlers.UpdateProjectHandler idStr d t = ⟨500, none, t⟩) ∧
    (∀ (idStr : String) (d : Models.ClientData) (t : Ent.Table Ent.Clients)
        (id : Int),
      idStr ≠ "" → Go.sscanInt idStr = some id → t.getRow id = none →
      Handlers.UpdateClientHandler idStr d t = ⟨500, none, t⟩) := by
  refine ⟨?_, ?_, ?_, ?_⟩
  · intro idStr d t id hatoi hget hn hd
    have hchk := Handlers.packageUpdateBuilder_check d hn hd
    simp only [Handlers.UpdatePackageHandler, hatoi, hchk,
      Ent.Table.saveUpdate_missing t id _ hget]
  · intro idStr d t id hatoi hchk
    simp only [Handlers.UpdatePackageHandler, hatoi, hchk,
      Ent.Table.saveUpdate_invalid]
  · intro idStr d t id hne hscan hget
    cases hchk : (Handlers.projectUpdateBuilder d).check with
    | false =>
      simp only [Handlers.UpdateProjectHandler, if_neg hne, hscan,
        Option.getD_some, hchk, Ent.Table.saveUpdate_invalid]
    | true =>
      simp only [Handlers.UpdateProjectHandler, if_neg hne, hscan,
        Option.getD_some, hchk, Ent.Table.saveUpdate_missing t id _ hget]
  · intro idStr d t id hne hscan hget
    cases hchk : (Handlers.clientUpdateBuilder d).check with
    | false =>
      simp only [Handlers.UpdateClientHandler, if_neg hne, hscan,
        Option.getD_some, hchk, Ent.Table.saveUpdate_invalid]
    | true =>
      simp only [Handlers.UpdateClientHandler, if_neg hne, hscan,
        Option.getD_some, hchk, Ent.Table.saveUpdate_missing t id _ hget]

/-- C3, witness: the amended theorem at concrete unknown ids over empty
tables, including a package update whose staged 101-byte name trips
the validator and yields 500. -/
theorem C3_witness :
    Handlers.UpdatePackageHandler "1" ⟨"n", "l", "d", none⟩
        (⟨[], 1⟩ : Ent.Table Ent.Packages) = ⟨404, none, ⟨[], 1⟩⟩ ∧
    Handlers.UpdatePackageHandler "1"
        ⟨String.mk (List.replicate 101 'a'), "l", "d", none⟩
        (⟨[], 1⟩ : Ent.Table Ent.Packages) = ⟨500, none, ⟨[], 1⟩⟩ ∧
    Handlers.UpdateProjectHandler "1" ⟨"n", "i", "l", "d", none⟩
        (⟨[], 1⟩ : Ent.Table Ent.Projects) = ⟨500, none, ⟨[], 1⟩⟩ ∧
    Handlers.UpdateClientHandler "1" ⟨"n", "l", "i"⟩
        (⟨[], 1⟩ : Ent.Table Ent.Clients) = ⟨500, none, ⟨[], 1⟩⟩ :=
  ⟨C3_update_missing.1 "1" ⟨"n", "l", "d", none⟩ ⟨[], 1⟩ 1 (by decide) rfl
      (by decide) (by decide),
   C3_update_missing.2.1 "1" ⟨String.mk (List.replicate 101 'a'), "l", "d", none⟩
      ⟨[], 1⟩ 1 (by decide) (by decide),
   C3_update_missing.2.2.1 "1" ⟨"n", "i", "l", "d", none⟩ ⟨[], 1⟩ 1 (by decide)
      (by decide) rfl,
   C3_update_missing.2.2.2 "1" ⟨"n", "l", "i"⟩ ⟨[], 1⟩ 1 (by decide)
      (by decide) rfl⟩

/-- C2, counterexample: the document-store project create validates
only `name`, so a create whose required `imageUrl`, `link` and
`description` are all empty is accepted (201) and persisted, refuting
the claim at this input. -/
theorem C2_counterexample :
    ¬ ((Fs.CreateProjectHandler ⟨"", "solo", "", "", ""⟩
          (⟨[], 0⟩ : Fs.Store)).status = 400 ∧
       (Fs.CreateProjectHandler ⟨"", "solo", "", "", ""⟩
          (⟨[], 0⟩ : Fs.Store)).store = ⟨[], 0⟩) := by
  decide

/-- C2 (amended): the relational create handlers answer 400 with no
store write whenever a required field is empty (project: name,
imageUrl, link, description; package: name; client: name, link,
imageUrl); the document-store project create validates only `name` —
an empty `name` yields 400 and no write, but any other empty field is
accepted and the record persisted. -/
theorem C2_create_validation :
    (∀ (d : Models.ProjectData) (t : Ent.Table Ent.Projects),
      (d.name = "" ∨ d.imageUrl = "" ∨ d.link = "" ∨ d.description = "") →
      Handlers.CreateProjectHandler d t = ⟨400, none, t⟩) ∧
    (∀ (d : Models.PackageData) (t : Ent.Table Ent.Packages),
      d.name = "" → Handlers.CreatePackageHandler d t = ⟨400, none, t⟩) ∧
    (∀ (d : Models.ClientData) (t : Ent.Table Ent.Clients),
      (d.name = "" ∨ d.link = "" ∨ d.imageUrl = "") →
      Handlers.CreateClientHandler d t = ⟨400, none, t⟩) ∧
    (∀ (p : Fs.Project) (st : Fs.Store),
      p.name = "" → Fs.CreateProjectHandler p st = ⟨400, none, st⟩) ∧
    (∀ (p : Fs.Project) (st : Fs.Store),
      p.name ≠ "" →
      (Fs.CreateProjectHandler p st).status = 201 ∧
      (Fs.CreateProjectHandler p st).store.docs =
        st.docs ++ [("g" ++ toString st.counter, p)]) := by
  refine ⟨?_, ?_, ?_, ?_, ?_⟩
  · intro d t h
    simp only [Handlers.CreateProjectHandler]
    split_ifs <;> simp_all
  · intro d t h
    simp [Handlers.CreatePackageHandler, h]
  · intro d t h
    simp only [Handlers.CreateClientHandler]
    split_ifs <;> simp_all
  · intro p st h
    simp [Fs.CreateProjectHandler, h]
  · intro p st h
    simp [Fs.CreateProjectHandler, h, Fs.Store.addDoc]

/-- C2, witness: the amended theorem at concrete inputs for each
variant. -/
theorem C2_witness :
    Handlers.CreateProjectHandler ⟨"", "i", "l", "d", none⟩
        (⟨[], 1⟩ : Ent.Table Ent.Projects) = ⟨400, none, ⟨[], 1⟩⟩ ∧
    Handlers.CreatePackageHandler ⟨"", "l", "d", none⟩
        (⟨[], 1⟩ : Ent.Table Ent.Packages) = ⟨400, none, ⟨[], 1⟩⟩ ∧
    Handlers.CreateClientHandler ⟨"c", "", "i"⟩
        (⟨[], 1⟩ : Ent.Table Ent.Clients) = ⟨400, none, ⟨[], 1⟩⟩ ∧
    Fs.CreateProjectHandler ⟨"", "", "i", "l", "d"⟩ (⟨[], 0⟩ : Fs.Store) =
      ⟨400, none, ⟨[], 0⟩⟩ ∧
    ((Fs.CreateProjectHandler ⟨"", "solo", "", "", ""⟩
        (⟨[], 0⟩ : Fs.Store)).status = 201 ∧
     (Fs.CreateProjectHandler ⟨"", "solo", "", "", ""⟩
        (⟨[], 0⟩ : Fs.Store)).store.docs =
       [] ++ [("g" ++ toString (0 : Nat), ⟨"", "solo", "", "", ""⟩)]) :=
  ⟨C2_create_validation.1 ⟨"", "i", "l", "d", none⟩ ⟨[], 1⟩ (Or.inl rfl),
   C2_create_validation.2.1 ⟨"", "l", "d", none⟩ ⟨[], 1⟩ rfl,
   C2_create_validation.2.2.1 ⟨"c", "", "i"⟩ ⟨[], 1⟩ (Or.inr (Or.inl rfl)),
   C2_create_validation.2.2.2.1 ⟨"", "", "i", "l", "d"⟩ ⟨[], 0⟩ rfl,
   C2_create_validation.2.2.2.2 ⟨"", "solo", "", "", ""⟩ ⟨[], 0⟩ (by decide)⟩

/-- C7: a successful DeleteByID followed by GetByID on the same id
yields 404, and GetByID on any nonexistent id yields 404 with the
store untouched. -/
theorem C7_delete_then_get :
    (∀ (idStr gidStr : String) (t : Ent.Table Ent.Projects) (id : Int)
        (r : Ent.Projects),
      idStr ≠ "" → Go.sscanInt idStr = some id → t.getRow id = some r →
      Go.atoi gidStr = some id →
      (Handlers.DeleteProjectHandler idStr t).status = 200 ∧
      Handlers.GetProjectByIDHandler gidStr
          (Handlers.DeleteProjectHandler idStr t).store =
        ⟨404, none, (Handlers.DeleteProjectHandler idStr t).store⟩) ∧
    (∀ (idStr : String) (t : Ent.Table Ent.Projects) (id : Int),
      Go.atoi idStr = some id → t.getRow id = none →
      Handlers.GetProjectByIDHandler idStr t = ⟨404, none, t⟩) := by
  constructor
  · intro idStr gidStr t id r hne hscan hget hatoi
    have hout : Handlers.DeleteProjectHandler idStr t =
        ⟨200, some "Project deleted successfully",
          Ent.Table.mk (t.rows.filter (fun p => !(p.1 == id))) t.nextId⟩ := by
      simp only [Handlers.DeleteProjectHandler, if_neg hne, hscan,
        Ent.Table.deleteRow_found t id r hget]
    rw [hout]
    refine ⟨rfl, ?_⟩
    simp only [Handlers.GetProjectByIDHandler, hatoi]
    rw [Ent.Table.getRow_delete_self t id]
  · intro idStr t id hatoi hget
    simp only [Handlers.GetProjectByIDHandler, hatoi]
    rw [hget]

/-- C7, witness: deleting row 1 then reading it back over a concrete
one-row table, and a read of id 9 over the empty table. -/
theorem C7_witness :
    ((Handlers.DeleteProjectHandler "1"
        (⟨[(1, ⟨"n", "i", "l", "d", "[]"⟩)], 2⟩ : Ent.Table Ent.Projects)).status = 200 ∧
     Handlers.GetProjectByIDHandler "1"
        (Handlers.DeleteProjectHandler "1"
          (⟨[(1, ⟨"n", "i", "l", "d", "[]"⟩)], 2⟩ : Ent.Table Ent.Projects)).store =
       ⟨404, none,
        (Handlers.DeleteProjectHandler "1"
          (⟨[(1, ⟨"n", "i", "l", "d", "[]"⟩)], 2⟩ : Ent.Table Ent.Projects)).store⟩) ∧
    Handlers.GetProjectByIDHandler "9" (⟨[], 1⟩ : Ent.Table Ent.Projects) =
      ⟨404, none, ⟨[], 1⟩⟩ :=
  ⟨C7_delete_then_get.1 "1" "1" ⟨[(1, ⟨"n", "i", "l", "d", "[]"⟩)], 2⟩ 1
      ⟨"n", "i", "l", "d", "[]"⟩ (by decide) (by decide) rfl (by decide),
   C7_delete_then_get.2 "9" ⟨[], 1⟩ 9 (by decide) rfl⟩

/-- C9, counterexample: creating a project with the stacks field absent
persists the string marshalled from the nil slice, which is "null" and
not the empty-array encoding "[]"; reading the record back yields the
nil slice (JSON null), not an empty array. -/
theorem C9_counterexample :
    ¬ ((((Handlers.CreateProjectHandler ⟨"n", "i", "l", "d", none⟩
            (⟨[], 1⟩ : Ent.Table Ent.Projects)).store.getRow 1).map
          Ent.Projects.stacks = some "[]") ∧
       ((Handlers.GetProjectByIDHandler "1"
            (Handlers.CreateProjectHandler ⟨"n", "i", "l", "d", none⟩
              (⟨[], 1⟩ : Ent.Table Ent.Projects)).store).body.map
          Models.ProjectResponse.stacks = some (some []))) := by
  decide

/-- C9 (amended): when the stacks field is absent from a valid create
request that also passes the schema validator (description within 1000
bytes), the handler marshals the nil slice, so the persisted stacks
column is the four-character string "null" (the schema default "[]" is
never used because SetStacks is always called); reading the record
back decodes that column to the nil slice — a stacks value with zero
elements, serialized to the client as JSON null rather than as an
empty array. -/
theorem C9_absent_stacks :
    ∀ (d : Models.ProjectData) (t : Ent.Table Ent.Projects) (idStr : String),
      d.stacks = none → d.name ≠ "" → d.imageUrl ≠ "" → d.link ≠ "" →
      d.description ≠ "" → d.description.utf8ByteSize ≤ 1000 →
      t.WF → Go.atoi idStr = some t.nextId →
      (((Handlers.CreateProjectHandler d t).store.getRow t.nextId).map
          Ent.Projects.stacks = some "null") ∧
      (Handlers.GetProjectByIDHandler idStr
          (Handlers.CreateProjectHandler d t).store).status = 200 ∧
      ((Handlers.GetProjectByIDHandler idStr
          (Handlers.CreateProjectHandler d t).store).body.map
          Models.ProjectResponse.stacks = some none) := by
  intro d t idStr hst hn hi hl hd hdlen hwf hatoi
  have hchk : Ent.Projects.createCheck
      { name := d.name, imageUrl := d.imageUrl, link := d.link,
        description := d.description,
        «stacks» := Go.marshalStringList d.stacks } = true := by
    simp [Ent.Projects.createCheck, hn, hdlen]
  have hstore : (Handlers.CreateProjectHandler d t).store =
      (t.insertRow { name := d.name, imageUrl := d.imageUrl, link := d.link,
                     description := d.description,
                     «stacks» := Go.marshalStringList d.stacks }).1 := by
    simp only [Handlers.CreateProjectHandler, if_neg hn, if_neg hi, if_neg hl,
      if_neg hd, hchk, Ent.Table.saveCreate_valid]
  have hrow := Ent.Table.getRow_insert_self t
    { name := d.name, imageUrl := d.imageUrl, link := d.link,
      description := d.description,
      «stacks» := Go.marshalStringList d.stacks } hwf
  refine ⟨?_, ?_, ?_⟩
  · rw [hstore, hrow]
    simp [hst]
    rfl
  · rw [hstore]
    simp only [Handlers.GetProjectByIDHandler, hatoi, hrow]
  · rw [hstore]
    simp only [Handlers.GetProjectByIDHandler, hatoi, hrow]
    simp [hst, Go.readStacks_marshal]

/-- C9, witness: the amended theorem at a concrete create over the
empty table. -/
theorem C9_witness :
    (((Handlers.CreateProjectHandler ⟨"n", "i", "l", "d", none⟩
          (⟨[], 1⟩ : Ent.Table Ent.Projects)).store.getRow 1).map
        Ent.Projects.stacks = some "null") ∧
    (Handlers.GetProjectByIDHandler "1"
        (Handlers.CreateProjectHandler ⟨"n", "i", "l", "d", none⟩
          (⟨[], 1⟩ : Ent.Table Ent.Projects)).store).status = 200 ∧
    ((Handlers.GetProjectByIDHandler "1"
        (Handlers.CreateProjectHandler ⟨"n", "i", "l", "d", none⟩
          (⟨[], 1⟩ : Ent.Table Ent.Projects)).store).body.map
        Models.ProjectResponse.stacks = some none) :=
  C9_absent_stacks ⟨"n", "i", "l", "d", none⟩ ⟨[], 1⟩ "1" rfl (by decide)
    (by decide) (by decide) (by decide) (by decide) (by simp [Ent.Table.WF])
    (by decide)

/-- C4, counterexample: a create input whose required fields are all
non-empty (valid per the spec) but whose description is 1001 bytes is
rejected by the schema's generated `MaxLen(1000)` validator inside
`Save`: the handler answers 500 and persists nothing, so no record is
returned and no GetByID round trip exists, refuting the claim at this
input. -/
theorem C4_counterexample :
    (Handlers.CreateProjectHandler
        ⟨"n", "i", "l", String.mk (List.replicate 1001 'x'), none⟩
        (⟨[], 1⟩ : Ent.Table Ent.Projects)).status = 500 ∧
    ¬ ((Handlers.CreateProjectHandler
        ⟨"n", "i", "l", String.mk (List.replicate 1001 'x'), none⟩
        (⟨[], 1⟩ : Ent.Table Ent.Projects)).status = 201) ∧
    (Handlers.CreateProjectHandler
        ⟨"n", "i", "l", String.mk (List.replicate 1001 'x'), none⟩
        (⟨[], 1⟩ : Ent.Table Ent.Projects)).store = ⟨[], 1⟩ := by
  decide

/-- C4 (amended): for every create input whose required fields are
non-empty and whose description also passes the schema's
`MaxLen(1000)` validator, the response carries the input fields plus
the store-assigned id with 201, and a subsequent GetByID with that id
returns a record equal to the created one; an input whose description
exceeds 1000 bytes is rejected inside `Save` with 500 and nothing is
persisted. -/
theorem C4_create_get :
    (∀ (d : Models.ProjectData) (t : Ent.Table Ent.Projects) (idStr : String),
      t.WF → d.name ≠ "" → d.imageUrl ≠ "" → d.link ≠ "" → d.description ≠ "" →
      d.description.utf8ByteSize ≤ 1000 →
      Go.atoi idStr = some t.nextId →
      (Handlers.CreateProjectHandler d t).status = 201 ∧
      (Handlers.CreateProjectHandler d t).body =
        some { id := t.nextId, name := d.name, imageUrl := d.imageUrl,
               link := d.link, description := d.description,
               «stacks» := d.stacks } ∧
      Handlers.GetProjectByIDHandler idStr
          (Handlers.CreateProjectHandler d t).store =
        ⟨200, (Handlers.CreateProjectHandler d t).body,
          (Handlers.CreateProjectHandler d t).store⟩) ∧
    (∀ (d : Models.ProjectData) (t : Ent.Table Ent.Projects),
      d.name ≠ "" → d.imageUrl ≠ "" → d.link ≠ "" →
      1000 < d.description.utf8ByteSize →
      Handlers.CreateProjectHandler d t = ⟨500, none, t⟩) := by
  constructor
  · intro d t idStr hwf hn hi hl hd hdlen hatoi
    have hchk : Ent.Projects.createCheck
        { name := d.name, imageUrl := d.imageUrl, link := d.link,
          description := d.description,
          «stacks» := Go.marshalStringList d.stacks } = true := by
      simp [Ent.Projects.createCheck, hn, hdlen]
    have hout : Handlers.CreateProjectHandler d t =
        ⟨201, some { id := t.nextId, name := d.name, imageUrl := d.imageUrl,
                     link := d.link, description := d.description,
                     «stacks» := d.stacks },
          (t.insertRow { name := d.name, imageUrl := d.imageUrl, link := d.link,
                         description := d.description,
                         «stacks» := Go.marshalStringList d.stacks }).1⟩ := by
      simp only [Handlers.CreateProjectHandler, if_neg hn, if_neg hi, if_neg hl,
        if_neg hd, hchk, Ent.Table.saveCreate_valid, Ent.Table.insertRow]
    rw [hout]
    refine ⟨rfl, rfl, ?_⟩
    simp only [Handlers.GetProjectByIDHandler, hatoi,
      Ent.Table.getRow_insert_self t _ hwf]
    simp [Go.readStacks_marshal]
  · intro d t hn hi hl hsz
    have hd : d.description ≠ "" := by
      intro h
      have h0 : ("" : String).utf8ByteSize = 0 := rfl
      rw [h, h0] at hsz
      omega
    have hdec : decide (d.description.utf8ByteSize ≤ 1000) = false := by
      simp
      omega
    have hchk : Ent.Projects.createCheck
        { name := d.name, imageUrl := d.imageUrl, link := d.link,
          description := d.description,
          «stacks» := Go.marshalStringList d.stacks } = false := by
      simp [Ent.Projects.createCheck, hdec]
    simp only [Handlers.CreateProjectHandler, if_neg hn, if_neg hi, if_neg hl,
      if_neg hd, hchk, Ent.Table.saveCreate_invalid]

/-- C4, witness: the amended theorem at a concrete create with a
non-trivial stacks list (exercising the marshal/unmarshal round trip)
and at a create with a 1001-byte description. -/
theorem C4_witness :
    ((Handlers.CreateProjectHandler ⟨"n", "i", "l", "d", some ["go", "lean"]⟩
        (⟨[], 1⟩ : Ent.Table Ent.Projects)).status = 201 ∧
     (Handlers.CreateProjectHandler ⟨"n", "i", "l", "d", some ["go", "lean"]⟩
        (⟨[], 1⟩ : Ent.Table Ent.Projects)).body =
       some { id := 1, name := "n", imageUrl := "i", link := "l",
              description := "d", «stacks» := some ["go", "lean"] } ∧
     Handlers.GetProjectByIDHandler "1"
        (Handlers.CreateProjectHandler ⟨"n", "i", "l", "d", some ["go", "lean"]⟩
          (⟨[], 1⟩ : Ent.Table Ent.Projects)).store =
       ⟨200,
        (Handlers.CreateProjectHandler ⟨"n", "i", "l", "d", some ["go", "lean"]⟩
          (⟨[], 1⟩ : Ent.Table Ent.Projects)).body,
        (Handlers.CreateProjectHandler ⟨"n", "i", "l", "d", some ["go", "lean"]⟩
          (⟨[], 1⟩ : Ent.Table Ent.Projects)).store⟩) ∧
    Handlers.CreateProjectHandler
        ⟨"n", "i", "l", String.mk (List.replicate 1001 'x'), none⟩
        (⟨[], 1⟩ : Ent.Table Ent.Projects) = ⟨500, none, ⟨[], 1⟩⟩ :=
  ⟨C4_create_get.1 ⟨"n", "i", "l", "d", some ["go", "lean"]⟩ ⟨[], 1⟩ "1"
      (by simp [Ent.Table.WF]) (by decide) (by decide) (by decide) (by decide)
      (by decide) (by decide),
   C4_create_get.2 ⟨"n", "i", "l", String.mk (List.replicate 1001 'x'), none⟩
      ⟨[], 1⟩ (by decide) (by decide) (by decide) (by decide)⟩

